import Mathlib

/-
Verification development for the mcp2-toolbox CLI (src/mcp2_toolbox/cli.py).
The Python code is shallowly embedded: Python dicts are association lists,
the process environment is an association list, fallible code returns
Except, and the third-party YAML codec (external to the repository) is
modelled from the spec as an abstract document type.
-/

namespace MCP2

/-- Association list standing for a Python str-to-str dict (insertion order kept). -/
abbrev EnvList := List (String × String)

/-- Overrides dict with Optional[str] values, as built by cmd_watch / cmd_run. -/
abbrev Overrides := List (String × Option String)

/-- Python dict lookup: first entry whose key matches. -/
def lookupKV : EnvList → String → Option String
  | [], _ => none
  | (k, v) :: rest, q => if q = k then some v else lookupKV rest q

/-- Lookup in an overrides dict: outer none means the key is absent,
some none means the key is present with value None. -/
def lookupOv : Overrides → String → Option (Option String)
  | [], _ => none
  | (k, v) :: rest, q => if q = k then some v else lookupOv rest q

/-- Python dict assignment d[k] = v: replace the first entry with that key
in place, otherwise append. -/
def setKV : EnvList → String → String → EnvList
  | [], k, v => [(k, v)]
  | (k', v') :: rest, k, v =>
    if k' = k then (k, v) :: rest else (k', v') :: setKV rest k v

/-- Python dict.update(e): assign every entry of e into the base dict, in order. -/
def updateKV (base : EnvList) (e : EnvList) : EnvList :=
  e.foldl (fun acc p => setKV acc p.1 p.2) base

/-- The dict comprehension in _env_with: keep the overrides whose value is not None. -/
def dropNoneOverrides : Overrides → EnvList
  | [] => []
  | (k, some v) :: rest => (k, v) :: dropNoneOverrides rest
  | (_, none) :: rest => dropNoneOverrides rest

/-- Embedding of _env_with (cli.py lines 147-151): copy os.environ (the base),
then update with the non-None overrides. -/
def envWith (overrides : Option Overrides) (base : EnvList) : EnvList :=
  match overrides with
  | none => base
  | some o => updateKV base (dropNoneOverrides o)

/-- Modelled from the spec's words for claim C1 (refinement comparison only):
the effective value at k is the override when it is present and non-empty,
and the base entry otherwise (empty or absent overrides leave the base alone). -/
def claimMergeC1 (o : Overrides) (base : EnvList) (k : String) : Option String :=
  match lookupOv o k with
  | some (some v) => if v = "" then lookupKV base k else some v
  | some none => lookupKV base k
  | none => lookupKV base k

/-- The merge law the code actually implements, stated pointwise: an override
that is present with a non-None value (empty string included) replaces the
base entry; a None or absent override leaves the base entry untouched. -/
def pyMergeSpec (o : Overrides) (base : EnvList) (k : String) : Option String :=
  match lookupOv o k with
  | some (some v) => some v
  | _ => lookupKV base k

/-- A dict has unique keys (always true of a real Python dict). -/
def uniqueKeysOv (o : Overrides) : Prop := (o.map Prod.fst).Nodup

/-- Exceptions that can cross the embedded code's function boundaries.
SystemExit carries either an integer exit code or a message (in which case
CPython exits with code 1); the MCP2ToolboxError hierarchy is represented
by its two concrete subclasses used in the code. -/
inductive PyExc where
  | systemExit (code : Int)
  | systemExitMsg (msg : String)
  | keyboardInterrupt
  | configurationError (msg : String)
  | deviceError (msg : String)
  | yamlError (msg : String)
  | valueError
  | indexError
deriving DecidableEq, Repr

/-- The Device dataclass (cli.py lines 32-35). -/
structure Device where
  name : String
  ip : String
deriving DecidableEq, Repr

/-- The option label built in cmd_ui: f-string name (ip). -/
def deviceLabel (d : Device) : String := d.name ++ " (" ++ d.ip ++ ")"

/-- Equality of Except values is decidable when both components are. -/
instance {ε α : Type} [DecidableEq ε] [DecidableEq α] : DecidableEq (Except ε α) :=
  fun a b =>
    match a, b with
    | .ok x, .ok y =>
      if h : x = y then .isTrue (by rw [h]) else .isFalse (fun hh => h (Except.ok.inj hh))
    | .error x, .error y =>
      if h : x = y then .isTrue (by rw [h]) else .isFalse (fun hh => h (Except.error.inj hh))
    | .ok _, .error _ => .isFalse (fun hh => Except.noConfusion hh)
    | .error _, .ok _ => .isFalse (fun hh => Except.noConfusion hh)

/-- The characters Python str.strip() removes by default (ASCII whitespace). -/
def isPySpace (c : Char) : Bool :=
  c == ' ' || c == '\t' || c == '\n' || c == '\r' || c.toNat == 11 || c.toNat == 12

/-- Embedding of Python s.strip(): drop whitespace from both ends. -/
def pyStripWs (s : String) : String :=
  String.mk (((s.toList.dropWhile isPySpace).reverse.dropWhile isPySpace).reverse)

/-- Helper for pySplitChar: accumulate the current piece (reversed) while
scanning, starting a new piece at each separator occurrence. -/
def splitOnCharAux (c : Char) : List Char → List Char → List (List Char)
  | [], acc => [acc.reverse]
  | x :: rest, acc =>
    if x == c then acc.reverse :: splitOnCharAux c rest []
    else splitOnCharAux c rest (x :: acc)

/-- Embedding of Python s.split(sep) for a one-character separator: split at
every occurrence, keeping empty pieces. -/
def pySplitChar (c : Char) (s : String) : List String :=
  (splitOnCharAux c s.toList []).map String.mk

/-- Helper for pyInt: after the first digit, digits with single underscores
between groups of digits are accepted (CPython integer literal grammar for
base 10). -/
def digitsOkAux : List Char → Bool
  | [] => true
  | '_' :: rest =>
    match rest with
    | [] => false
    | d :: rest' => d.isDigit && digitsOkAux rest'
  | c :: rest => c.isDigit && digitsOkAux rest

/-- A nonempty run of decimal digits, underscore separators allowed inside. -/
def digitsOk : List Char → Bool
  | [] => false
  | c :: rest => c.isDigit && digitsOkAux rest

/-- Numeric value of a digit run, ignoring underscore separators. -/
def natOfDigits (cs : List Char) : Nat :=
  cs.foldl (fun acc c => if c = '_' then acc else acc * 10 + (c.toNat - '0'.toNat)) 0

/-- Embedding of Python int(s) for base-10 strings: surrounding whitespace is
stripped, an optional sign is allowed, and anything else raises ValueError. -/
def pyInt (s : String) : Except PyExc Int :=
  match (pyStripWs s).toList with
  | '+' :: rest =>
    if digitsOk rest then .ok (Int.ofNat (natOfDigits rest)) else .error .valueError
  | '-' :: rest =>
    if digitsOk rest then .ok (-(Int.ofNat (natOfDigits rest))) else .error .valueError
  | rest =>
    if digitsOk rest then .ok (Int.ofNat (natOfDigits rest)) else .error .valueError

/-- The effective index of Python list subscription: negative indices count
from the end of a list of length n. -/
def pyAdjIdx (n : Nat) (i : Int) : Int := if i < 0 then i + n else i

/-- Embedding of Python list subscription l[i]: negative indices count from
the end, and an index out of range raises IndexError. -/
def pyIndex {α : Type} (l : List α) (i : Int) : Except PyExc α :=
  if h : 0 ≤ pyAdjIdx l.length i ∧ pyAdjIdx l.length i < (l.length : Int) then
    .ok (l.get ⟨(pyAdjIdx l.length i).toNat, by omega⟩)
  else .error .indexError

/-- Embedding of Python s.strip(c): remove the character from both ends. -/
def stripChar (c : Char) (s : String) : String :=
  String.mk (((s.toList.dropWhile (· == c)).reverse.dropWhile (· == c)).reverse)

/-- The option list of cmd_ui: device labels, or the Manual IP sentinel when
the device list is empty (a Python or-expression on a possibly empty list). -/
def uiOptions (devs : List Device) : List String :=
  match devs with
  | [] => ["Manual IP"]
  | _ => devs.map deviceLabel

/-- Embedding of cmd_ui (cli.py lines 129-141), with discovery results and
the two operator inputs passed explicitly: parse the selection with int(),
subscript the 1-based option list, then either prompt for a manual IP or
extract the address between the parentheses of the chosen label. -/
def cmd_ui (devs : List Device) (selInput manualInput : String) :
    Except PyExc String :=
  let opts := uiOptions devs
  match pyInt selInput with
  | .error e => .error e
  | .ok n =>
    match pyIndex opts (n - 1) with
    | .error e => .error e
    | .ok choice =>
      if choice = "Manual IP" then .ok (pyStripWs manualInput)
      else .ok (stripChar ')' ((pySplitChar '(' choice).getLastD ""))

/-- The four flags _parse_kv recognizes (cli.py line 169). -/
def isFlagTok (a : String) : Bool :=
  a == "--project" || a == "--elf" || a == "--build" || a == "--pcsx2-exe"

/-- The dict key derived from a flag token: a.lstrip of dashes, then every
remaining dash replaced by an underscore. -/
def keyOf (a : String) : String :=
  String.mk ((a.toList.dropWhile (· == '-')).map (fun c => if c == '-' then '_' else c))

/-- The scan loop of _parse_kv (cli.py lines 164-177): a recognized flag
consumes the following token as its value (SystemExit when there is none);
any other token is stepped over. -/
def parse_kv_go : List String → EnvList → Except PyExc EnvList
  | [], out => .ok out
  | a :: rest, out =>
    if isFlagTok a then
      match rest with
      | [] => .error (.systemExitMsg ("missing value for " ++ a))
      | v :: rest' => parse_kv_go rest' (setKV out (keyOf a) v)
    else parse_kv_go rest out

/-- Embedding of _parse_kv: run the scan loop on an initially empty dict. -/
def parse_kv (args : List String) : Except PyExc EnvList := parse_kv_go args []

/-- Spec-level restatement of the failure condition of the scan: the scan,
consuming values after recognized flags, reaches a recognized flag that is
the final token. -/
def missingFlagValue : List String → Bool
  | [] => false
  | a :: rest =>
    if isFlagTok a then
      match rest with
      | [] => true
      | _ :: rest' => missingFlagValue rest'
    else missingFlagValue rest

/-- The keys _parse_kv can produce. -/
def kvKeys : List String := ["project", "elf", "build", "pcsx2_exe"]

/-- A spawned process: executable path, argument list, and the (already
merged) environment it receives. -/
structure Spawn where
  path : String
  args : List String
  env : EnvList
deriving DecidableEq

/-- os.path.join for relative components. -/
def joinPath (base : String) (parts : List String) : String :=
  parts.foldl (fun acc p => acc ++ "/" ++ p) base

/-- Embedding of _run_script (cli.py lines 154-161): build the spawn with the
merged environment; in background mode report the pid and return 0 without
waiting, otherwise wait and return the child's exit code, supplied here by an
oracle mapping each spawn to the code its script exits with. -/
def run_script (oracle : Spawn → Int) (base : EnvList) (path : String)
    (args : List String) (envOverrides : Option Overrides) (background : Bool) :
    List Spawn × Int :=
  let sp : Spawn := ⟨path, args, envWith envOverrides base⟩
  if background then ([sp], 0) else ([sp], oracle sp)

/-- Embedding of cmd_new (cli.py lines 180-188): usage error on missing name,
otherwise spawn the bootstrap script with [name, dest] and sys.exit its code. -/
def cmd_new (oracle : Spawn → Int) (base : EnvList) (chBase : String)
    (args : List String) : List Spawn × Except PyExc Unit :=
  match args with
  | [] => ([], .error (.systemExit 1))
  | name :: rest =>
    let dest := match rest with
      | d :: _ => d
      | [] => joinPath chBase [name]
    let script := joinPath chBase ["hg_ps2_bootstrap", "scripts", "new_visualizer.sh"]
    let r := run_script oracle base script [name, dest] none false
    (r.1, .error (.systemExit r.2))

/-- Embedding of cmd_watch (cli.py lines 191-202): pick the Windows or POSIX
watch script, pass the parsed flags as environment overrides (missing flags
become None overrides), and sys.exit the script's code. -/
def cmd_watch (oracle : Spawn → Int) (base : EnvList) (chBase : String)
    (args : List String) : List Spawn × Except PyExc Unit :=
  let use_win := args.contains "--win"
  match parse_kv args with
  | .error e => ([], .error e)
  | .ok kv =>
    let script := joinPath chBase ["pcsx2_scaffold", "scripts",
      if use_win then "watch_build_run_win.sh" else "watch_build_run.sh"]
    let ov : Overrides := [
      ("TARGET_PROJECT", lookupKV kv "project"),
      ("TARGET_ELF", lookupKV kv "elf"),
      ("BUILD_CMD", lookupKV kv "build"),
      ("WIN_PCSX2_EXE", lookupKV kv "pcsx2_exe")]
    let r := run_script oracle base script [] (some ov) false
    (r.1, .error (.systemExit r.2))

/-- Embedding of cmd_run (cli.py lines 205-222): pick the Windows or POSIX
run script; pass --elf as a script argument when its parsed value is truthy;
only the Windows branch applies an environment override (WIN_PCSX2_EXE). -/
def cmd_run (oracle : Spawn → Int) (base : EnvList) (chBase : String)
    (args : List String) : List Spawn × Except PyExc Unit :=
  let use_win := args.contains "--win"
  match parse_kv args with
  | .error e => ([], .error e)
  | .ok kv =>
    let call_args := match lookupKV kv "elf" with
      | some e => if e == "" then [] else ["--elf", e]
      | none => []
    if use_win then
      let script := joinPath chBase ["pcsx2_scaffold", "scripts", "run_pcsx2_win.sh"]
      let ov : Overrides := [("WIN_PCSX2_EXE", lookupKV kv "pcsx2_exe")]
      let r := run_script oracle base script call_args (some ov) false
      (r.1, .error (.systemExit r.2))
    else
      let script := joinPath chBase ["pcsx2_scaffold", "scripts", "run_pcsx2.sh"]
      let r := run_script oracle base script call_args none false
      (r.1, .error (.systemExit r.2))

/-- Embedding of cmd_hook_install (cli.py lines 225-229). -/
def cmd_hook_install (oracle : Spawn → Int) (base : EnvList) (chBase : String)
    (args : List String) : List Spawn × Except PyExc Unit :=
  let repo := match args with
    | r :: _ => r
    | [] => joinPath chBase ["hairglasses_ps2_visualizer_classic"]
  let script := joinPath chBase ["pcsx2_scaffold", "scripts", "install_git_hooks.sh"]
  let r := run_script oracle base script [repo] none false
  (r.1, .error (.systemExit r.2))

/-- Modelled from the spec: the settings file content as the YAML codec sees
it. The YAML library is external to this repository; per the spec a settings
file either parses as a flat key/value mapping, is empty (None), or is
malformed, in which case safe_load raises a YAMLError. -/
inductive YamlDoc where
  | mapping (entries : EnvList)
  | nullDoc
  | malformed (msg : String)
deriving DecidableEq

/-- Modelled from the spec: yaml.safe_load on the abstract document. -/
def safe_load : YamlDoc → Except PyExc (Option EnvList)
  | .mapping m => .ok (some m)
  | .nullDoc => .ok none
  | .malformed msg => .error (.yamlError msg)

/-- Byte-wise comparison of keys used by the deterministic dump order. -/
def charListLe : List Char → List Char → Bool
  | [], _ => true
  | _ :: _, [] => false
  | a :: as, b :: bs =>
    if a.toNat < b.toNat then true
    else if b.toNat < a.toNat then false
    else charListLe as bs

/-- Insert an entry into a key-sorted association list. -/
def insertSortedKV (p : String × String) : EnvList → EnvList
  | [] => [p]
  | q :: rest =>
    if charListLe p.1.toList q.1.toList then p :: q :: rest
    else q :: insertSortedKV p rest

/-- Sort an association list by key (insertion sort). -/
def sortByKey (l : EnvList) : EnvList := l.foldr insertSortedKV []

/-- Modelled from the spec: yaml.safe_dump with sort_keys=True serializes the
mapping with deterministic sorted key order; the document round-trips. -/
def safe_dump (cfg : EnvList) : YamlDoc := .mapping (sortByKey cfg)

/-- The fixed per-user settings path (before expanduser resolution). -/
def cfgPath : String := "~/.config/console-hax/mcp2-toolbox.yml"

/-- Filesystem state the config store touches: file contents (as YAML
documents) and the set of existing directories. -/
structure FS where
  files : String → Option YamlDoc
  dirs : List String

/-- Join path components with slashes. -/
def joinSlash : List String → String
  | [] => ""
  | x :: rest => rest.foldl (fun acc p => acc ++ "/" ++ p) x

/-- os.path.dirname: everything before the last slash. -/
def dirname (s : String) : String :=
  match pySplitChar '/' s with
  | [] => ""
  | [_] => ""
  | parts => joinSlash parts.dropLast

/-- The chain of directories os.makedirs creates for a path. -/
def mkdirChain (d : String) : List String :=
  let parts := pySplitChar '/' d
  (List.range parts.length).map (fun i => joinSlash (parts.take (i + 1)))

/-- os.makedirs(d, exist_ok=True): ensure the directory chain exists. -/
def makedirs (fs : FS) (d : String) : FS :=
  { fs with dirs := fs.dirs ++ mkdirChain d }

/-- Embedding of load_config (cli.py lines 53-75): empty mapping when the
file is absent or yaml is unavailable; YAMLError from parsing is wrapped in
ConfigurationError; any other load error is wrapped as well. -/
def load_config (fs : FS) (yamlAvail : Bool) : Except PyExc EnvList :=
  match fs.files cfgPath with
  | none => .ok []
  | some doc =>
    if !yamlAvail then .ok []
    else
      match safe_load doc with
      | .ok o => .ok (o.getD [])
      | .error (.yamlError msg) =>
        .error (.configurationError ("Invalid YAML in config file: " ++ msg))
      | .error _ => .error (.configurationError "Failed to load config")

/-- Embedding of _cfg_load (cli.py lines 236-241): empty mapping when the
file is absent or yaml is unavailable; otherwise safe_load's result, with a
parse failure propagating unwrapped. -/
def cfg_load (fs : FS) (yamlAvail : Bool) : Except PyExc EnvList :=
  match fs.files cfgPath with
  | none => .ok []
  | some doc =>
    if !yamlAvail then .ok []
    else
      match safe_load doc with
      | .ok o => .ok (o.getD [])
      | .error e => .error e

/-- Embedding of _cfg_save (cli.py lines 244-249): always create the parent
directories, then write the sorted dump only when yaml is available. -/
def cfg_save (fs : FS) (yamlAvail : Bool) (cfg : EnvList) : FS :=
  let fs1 := makedirs fs (dirname cfgPath)
  if yamlAvail then
    { fs1 with files := fun p => if p == cfgPath then some (safe_dump cfg) else fs1.files p }
  else fs1

/-- Embedding of cmd_config (cli.py lines 252-266): load the stored settings
(a parse failure propagates), compute defaults, overlay the stripped operator
answers when non-empty, and save the resulting four-key mapping. -/
def cmd_config (fs : FS) (yamlAvail : Bool) (chBase : String)
    (inProject inElf inBuild inPcsx2 : String) : Except PyExc FS :=
  match cfg_load fs yamlAvail with
  | .error e => .error e
  | .ok cfg =>
    let defProject := (lookupKV cfg "project").getD
      (joinPath chBase ["hairglasses_ps2_visualizer_classic"])
    let defElf := (lookupKV cfg "elf").getD
      (joinPath chBase ["hairglasses_ps2_visualizer_classic", "bin", "hg_ps2_visualizer.elf"])
    let defBuild := (lookupKV cfg "build").getD "./tools/build_ee.sh --docker --fast"
    let defPcsx2 := (lookupKV cfg "pcsx2_exe").getD ""
    let project := if pyStripWs inProject == "" then defProject else pyStripWs inProject
    let elf := if pyStripWs inElf == "" then defElf else pyStripWs inElf
    let build := if pyStripWs inBuild == "" then defBuild else pyStripWs inBuild
    let pcsx2 := if pyStripWs inPcsx2 == "" then defPcsx2 else pyStripWs inPcsx2
    .ok (cfg_save fs yamlAvail
      [("project", project), ("elf", elf), ("build", build), ("pcsx2_exe", pcsx2)])

/-- The parsed argparse command, with each subcommand's parsed options. -/
inductive PCommand where
  | pnone
  | plist
  | pui
  | pnew (name : String) (dest : Option String)
  | pwatch (win : Bool) (project elf build pcsx2 : Option String)
  | prun (win : Bool) (elf pcsx2 : Option String)
  | phook (repo : Option String)
  | pconfig

/-- The argument list main builds for cmd_watch (cli.py lines 367-377):
each option is forwarded only when truthy (non-empty). -/
def buildWatchArgs (win : Bool) (project elf build pcsx2 : Option String) :
    List String :=
  (if win then ["--win"] else []) ++
  (match project with
    | some p => if p == "" then [] else ["--project", p]
    | none => []) ++
  (match elf with
    | some e => if e == "" then [] else ["--elf", e]
    | none => []) ++
  (match build with
    | some b => if b == "" then [] else ["--build", b]
    | none => []) ++
  (match pcsx2 with
    | some x => if x == "" then [] else ["--pcsx2-exe", x]
    | none => [])

/-- The argument list main builds for cmd_run (cli.py lines 380-386). -/
def buildRunArgs (win : Bool) (elf pcsx2 : Option String) : List String :=
  (if win then ["--win"] else []) ++
  (match elf with
    | some e => if e == "" then [] else ["--elf", e]
    | none => []) ++
  (match pcsx2 with
    | some x => if x == "" then [] else ["--pcsx2-exe", x]
    | none => [])

/-- How main's try/except ladder disposes of an exception escaping a handler
(cli.py lines 398-406): KeyboardInterrupt returns 130, MCP2ToolboxError and
every other Exception return 1, and SystemExit matches no handler, so it
keeps propagating. -/
def handleExc : PyExc → Except PyExc Int
  | .systemExit c => .error (.systemExit c)
  | .systemExitMsg m => .error (.systemExitMsg m)
  | .keyboardInterrupt => .ok 130
  | .configurationError _ => .ok 1
  | .deviceError _ => .ok 1
  | _ => .ok 1

/-- The world a single invocation runs in: the scripts' exit codes (oracle),
the inherited process environment, the resolved base path, discovery
results, operator answers, and the filesystem. -/
structure World where
  oracle : Spawn → Int
  base : EnvList
  chBase : String
  devs : List Device
  uiSel : String
  uiManual : String
  fs : FS
  yamlAvail : Bool
  inProject : String
  inElf : String
  inBuild : String
  inPcsx2 : String

/-- Embedding of main (cli.py lines 341-406) for a parsed command: route to
the handler, catch exceptions per the ladder; the result is either main's
return value or an uncaught (SystemExit) exception, together with the
spawns performed. -/
def mainRun (W : World) (pc : PCommand) : List Spawn × Except PyExc Int :=
  match pc with
  | .pnone => ([], .ok 1)
  | .plist => ([], .ok 0)
  | .pui =>
    ([], match cmd_ui W.devs W.uiSel W.uiManual with
      | .ok _ => .ok 0
      | .error e => handleExc e)
  | .pnew name dest =>
    let r := cmd_new W.oracle W.base W.chBase
      (name :: (match dest with
        | some d => if d == "" then [] else [d]
        | none => []))
    (r.1, match r.2 with
      | .ok _ => .ok 0
      | .error e => handleExc e)
  | .pwatch win project elf build pcsx2 =>
    let r := cmd_watch W.oracle W.base W.chBase
      (buildWatchArgs win project elf build pcsx2)
    (r.1, match r.2 with
      | .ok _ => .ok 0
      | .error e => handleExc e)
  | .prun win elf pcsx2 =>
    let r := cmd_run W.oracle W.base W.chBase (buildRunArgs win elf pcsx2)
    (r.1, match r.2 with
      | .ok _ => .ok 0
      | .error e => handleExc e)
  | .phook repo =>
    let r := cmd_hook_install W.oracle W.base W.chBase
      (match repo with
        | some s => if s == "" then [] else [s]
        | none => [])
    (r.1, match r.2 with
      | .ok _ => .ok 0
      | .error e => handleExc e)
  | .pconfig =>
    ([], match cmd_config W.fs W.yamlAvail W.chBase W.inProject W.inElf
        W.inBuild W.inPcsx2 with
      | .ok _ => .ok 0
      | .error e => handleExc e)

/-- The process exit code of the module entry point (cli.py lines 409-410):
main() is called without sys.exit, so a normal return discards the returned
code and the interpreter exits 0; an uncaught SystemExit exits with its code
(message form exits 1); any other uncaught exception exits 1. -/
def processExitOf : Except PyExc Int → Nat
  | .ok _ => 0
  | .error (.systemExit c) => (c % 256).toNat
  | .error (.systemExitMsg _) => 1
  | .error _ => 1

/-- Exit code of one whole invocation of python cli.py with the given
parsed command. -/
def moduleExit (W : World) (pc : PCommand) : Nat :=
  processExitOf (mainRun W pc).2

/-- Argument lists that the scan of _parse_kv always gets through: built
from single non-flag tokens and flag-value pairs. -/
inductive Chunked : List String → Prop
  | nil : Chunked []
  | skip (a : String) (rest : List String) (h : isFlagTok a = false)
      (hr : Chunked rest) : Chunked (a :: rest)
  | flagVal (a v : String) (rest : List String) (h : isFlagTok a = true)
      (hr : Chunked rest) : Chunked (a :: v :: rest)

/-- A concrete world used by the witnesses: every script exits 7, empty
inherited environment and filesystem. -/
def testWorld : World where
  oracle := fun _ => 7
  base := []
  chBase := "/base"
  devs := []
  uiSel := ""
  uiManual := ""
  fs := ⟨fun _ => none, []⟩
  yamlAvail := true
  inProject := ""
  inElf := ""
  inBuild := ""
  inPcsx2 := ""

/-- Discriminator for the ConfigurationError kind. -/
def isConfigErrorExc : PyExc → Bool
  | .configurationError _ => true
  | _ => false

/-- A filesystem whose settings file exists but is malformed. -/
def malformedFS : FS :=
  ⟨fun p => if p == cfgPath then some (.malformed "bad") else none, []⟩

/-- A filesystem with no files and no directories. -/
def emptyFS : FS := ⟨fun _ => none, []⟩

theorem lookupKV_setKV (l : EnvList) (k v q) :
    lookupKV (setKV l k v) q = if q = k then some v else lookupKV l q := by
  induction l with
  | nil => simp [setKV, lookupKV]
  | cons p rest ih =>
    obtain ⟨k', v'⟩ := p
    by_cases h : k' = k
    · subst h
      by_cases hq : q = k' <;> simp [setKV, lookupKV, hq]
    · by_cases hq : q = k'
      · subst hq
        simp [setKV, lookupKV, h]
      · simp [setKV, lookupKV, h, hq, ih]

theorem lookupKV_append (l₁ l₂ : EnvList) (q) :
    lookupKV (l₁ ++ l₂) q =
      match lookupKV l₁ q with
      | some v => some v
      | none => lookupKV l₂ q := by
  induction l₁ with
  | nil => simp [lookupKV]
  | cons p rest ih =>
    obtain ⟨k, v⟩ := p
    by_cases h : q = k <;> simp [lookupKV, h, ih]

theorem lookupKV_eq_none_iff (l : EnvList) (q) :
    lookupKV l q = none ↔ q ∉ l.map Prod.fst := by
  induction l with
  | nil => simp [lookupKV]
  | cons p rest ih =>
    obtain ⟨k, v⟩ := p
    by_cases h : q = k <;> simp [lookupKV, h, ih]

theorem lookupKV_updateKV (base e : EnvList) (q) :
    lookupKV (updateKV base e) q =
      match lookupKV e.reverse q with
      | some v => some v
      | none => lookupKV base q := by
  induction e generalizing base with
  | nil => simp [updateKV, lookupKV]
  | cons p rest ih =>
    obtain ⟨k, v⟩ := p
    have step : updateKV base ((k, v) :: rest) = updateKV (setKV base k v) rest := rfl
    rw [step, ih]
    have hrev : ((k, v) :: rest).reverse = rest.reverse ++ [(k, v)] := by simp
    rw [hrev, lookupKV_append]
    cases hr : lookupKV rest.reverse q with
    | some w => simp
    | none =>
      simp [lookupKV_setKV]
      by_cases h : q = k <;> simp [lookupKV, h]

theorem lookupKV_reverse_of_nodup (l : EnvList) (q)
    (h : (l.map Prod.fst).Nodup) : lookupKV l.reverse q = lookupKV l q := by
  induction l with
  | nil => simp
  | cons p rest ih =>
    obtain ⟨k, v⟩ := p
    simp only [List.map_cons, List.nodup_cons] at h
    have hrev : ((k, v) :: rest).reverse = rest.reverse ++ [(k, v)] := by simp
    rw [hrev, lookupKV_append]
    by_cases hq : q = k
    · subst hq
      have : lookupKV rest q = none := by
        rw [lookupKV_eq_none_iff]; exact h.1
      have hnone : lookupKV rest.reverse q = none := by
        rw [lookupKV_eq_none_iff]; simpa using h.1
      simp [hnone, lookupKV]
    · rw [ih h.2]
      cases hr : lookupKV rest q <;> simp [lookupKV, hq, hr]

theorem keys_dropNoneOverrides_sublist (o : Overrides) :
    ((dropNoneOverrides o).map Prod.fst).Sublist (o.map Prod.fst) := by
  induction o with
  | nil => simp [dropNoneOverrides]
  | cons p rest ih =>
    obtain ⟨k, v⟩ := p
    cases v with
    | none =>
      simp only [dropNoneOverrides, List.map_cons]
      exact List.Sublist.cons k ih
    | some w =>
      simp only [dropNoneOverrides, List.map_cons]
      exact List.Sublist.cons₂ k ih

theorem lookupKV_dropNoneOverrides (o : Overrides) (k : String)
    (h : uniqueKeysOv o) :
    lookupKV (dropNoneOverrides o) k =
      match lookupOv o k with
      | some (some v) => some v
      | _ => none := by
  induction o with
  | nil => simp [dropNoneOverrides, lookupKV, lookupOv]
  | cons p rest ih =>
    obtain ⟨k', v'⟩ := p
    simp only [uniqueKeysOv, List.map_cons, List.nodup_cons] at h
    cases v' with
    | none =>
      by_cases hq : k = k'
      · subst hq
        have hnone : lookupKV (dropNoneOverrides rest) k = none := by
          rw [lookupKV_eq_none_iff]
          intro hmem
          exact h.1 ((keys_dropNoneOverrides_sublist rest).subset hmem)
        simp [dropNoneOverrides, lookupOv, hnone]
      · simp only [dropNoneOverrides, lookupOv, if_neg hq]
        exact ih h.2
    | some w =>
      by_cases hq : k = k'
      · subst hq
        simp [dropNoneOverrides, lookupKV, lookupOv]
      · simp only [dropNoneOverrides, lookupOv, lookupKV, if_neg hq]
        exact ih h.2

theorem pyIndex_out_of_range {α : Type} (l : List α) (i : Int)
    (h : i ≥ (l.length : Int) ∨ i < -((l.length : Int))) :
    pyIndex l i = .error .indexError := by
  unfold pyIndex
  rw [dif_neg]
  unfold pyAdjIdx
  split_ifs with hi <;> omega

/-- Claim C1, amended: with a real overrides dict (unique keys), the spawned
environment agrees with the base everywhere except at keys the overrides map
to a non-None value, which replace the base entry; None or absent overrides
leave the base entry (if any) untouched.  An override whose value is the
empty string does replace the base entry. -/
theorem envWith_merge_law (O : Overrides) (E : EnvList) (k : String)
    (h : uniqueKeysOv O) :
    lookupKV (envWith (some O) E) k = pyMergeSpec O E k := by
  have hnodup : ((dropNoneOverrides O).map Prod.fst).Nodup :=
    (keys_dropNoneOverrides_sublist O).nodup h
  unfold envWith pyMergeSpec
  rw [lookupKV_updateKV, lookupKV_reverse_of_nodup _ _ hnodup,
    lookupKV_dropNoneOverrides O k h]
  cases hv : lookupOv O k with
  | none => simp
  | some ov => cases ov <;> simp

/-- Witness for envWith_merge_law at a concrete overrides dict. -/
theorem envWith_merge_law_witness :
    uniqueKeysOv [("TARGET_ELF", some "a.elf")] ∧
      lookupKV (envWith (some [("TARGET_ELF", some "a.elf")]) [("PATH", "/bin")])
          "TARGET_ELF" =
        pyMergeSpec [("TARGET_ELF", some "a.elf")] [("PATH", "/bin")] "TARGET_ELF" :=
  ⟨by simp [uniqueKeysOv],
    envWith_merge_law [("TARGET_ELF", some "a.elf")] [("PATH", "/bin")] "TARGET_ELF"
      (by simp [uniqueKeysOv])⟩

/-- Counterexample to claim C1 as stated: an override present with the empty
string as its value does replace the base entry, where the claim demands the
base entry be left untouched. -/
theorem envWith_empty_override_counterexample :
    lookupKV (envWith (some [("K", some "")]) [("K", "x")]) "K" = some "" ∧
      claimMergeC1 [("K", some "")] [("K", "x")] "K" = some "x" ∧
      lookupKV (envWith (some [("K", some "")]) [("K", "x")]) "K" ≠
        claimMergeC1 [("K", some "")] [("K", "x")] "K" := by
  refine ⟨rfl, rfl, ?_⟩
  decide

/-- Counterexample to claim C2 as stated: with devices [A at 10.0.0.1] the
numbered menu offers only option 1, so operator input 0 is out of range of
the 1-based menu; yet the call does not fail, it silently resolves to the
last option through Python negative indexing. -/
theorem cmd_ui_zero_input_counterexample :
    pyInt "0" = .ok 0 ∧
      uiOptions [⟨"A", "10.0.0.1"⟩] = ["A (10.0.0.1)"] ∧
      cmd_ui [⟨"A", "10.0.0.1"⟩] "0" "" = .ok "10.0.0.1" :=
  ⟨rfl, rfl, rfl⟩

/-- Claim C2, amended: input 1 resolves the single device to 10.0.0.1 and
input 2 fails; non-numeric input fails with ValueError; a numeric selection
whose zero-based index falls at or beyond the option count, or strictly
below the negated option count, fails with IndexError; but selections from
1 - n to 0 silently resolve to options counted from the end of the menu
(Python negative indexing) instead of failing. -/
theorem cmd_ui_selection_behavior :
    (∀ m : String, cmd_ui [⟨"A", "10.0.0.1"⟩] "1" m = .ok "10.0.0.1") ∧
      (∀ m : String, cmd_ui [⟨"A", "10.0.0.1"⟩] "2" m = .error .indexError) ∧
      (∀ (devs : List Device) (sel m : String), pyInt sel = .error .valueError →
        cmd_ui devs sel m = .error .valueError) ∧
      (∀ (devs : List Device) (sel m : String) (k : Int), pyInt sel = .ok k →
        (k - 1 ≥ ((uiOptions devs).length : Int) ∨
          k - 1 < -(((uiOptions devs).length : Int))) →
        cmd_ui devs sel m = .error .indexError) := by
  refine ⟨fun m => rfl, fun m => rfl, ?_, ?_⟩
  · intro devs sel m hsel
    unfold cmd_ui
    rw [hsel]
  · intro devs sel m k hsel hk
    unfold cmd_ui
    rw [hsel]
    simp only []
    rw [pyIndex_out_of_range _ _ hk]

/-- Witness for cmd_ui_selection_behavior at concrete inputs. -/
theorem cmd_ui_selection_behavior_witness :
    cmd_ui [⟨"A", "10.0.0.1"⟩] "1" "" = .ok "10.0.0.1" ∧
      cmd_ui [⟨"A", "10.0.0.1"⟩] "2" "" = .error .indexError ∧
      cmd_ui [⟨"A", "10.0.0.1"⟩] "abc" "" = .error .valueError ∧
      cmd_ui [⟨"A", "10.0.0.1"⟩] "5" "" = .error .indexError :=
  ⟨cmd_ui_selection_behavior.1 "",
    cmd_ui_selection_behavior.2.1 "",
    cmd_ui_selection_behavior.2.2.1 [⟨"A", "10.0.0.1"⟩] "abc" "" rfl,
    cmd_ui_selection_behavior.2.2.2 [⟨"A", "10.0.0.1"⟩] "5" "" 5 rfl
      (Or.inl (by decide))⟩

theorem keyOf_mem_kvKeys (a : String) (h : isFlagTok a = true) : keyOf a ∈ kvKeys := by
  simp only [isFlagTok, Bool.or_eq_true, beq_iff_eq] at h
  rcases h with ((h | h) | h) | h <;> subst h <;> decide

theorem parse_kv_go_flag_step (a v : String) (rest : List String) (out : EnvList)
    (h : isFlagTok a = true) :
    parse_kv_go (a :: v :: rest) out = parse_kv_go rest (setKV out (keyOf a) v) := by
  simp [parse_kv_go, h]

theorem parse_kv_go_flag_last (a : String) (out : EnvList)
    (h : isFlagTok a = true) :
    parse_kv_go [a] out = .error (.systemExitMsg ("missing value for " ++ a)) := by
  simp [parse_kv_go, h]

theorem parse_kv_go_skip_step (a : String) (rest : List String) (out : EnvList)
    (h : ¬ isFlagTok a = true) :
    parse_kv_go (a :: rest) out = parse_kv_go rest out := by
  rw [parse_kv_go.eq_def]
  simp [h]

theorem missingFlagValue_flag_step (a v : String) (rest : List String)
    (h : isFlagTok a = true) :
    missingFlagValue (a :: v :: rest) = missingFlagValue rest := by
  simp [missingFlagValue, h]

theorem missingFlagValue_flag_last (a : String) (h : isFlagTok a = true) :
    missingFlagValue [a] = true := by
  simp [missingFlagValue, h]

theorem missingFlagValue_skip_step (a : String) (rest : List String)
    (h : ¬ isFlagTok a = true) :
    missingFlagValue (a :: rest) = missingFlagValue rest := by
  rw [missingFlagValue.eq_def]
  simp [h]

theorem parse_kv_go_error_iff (args : List String) (out : EnvList) :
    (∃ e, parse_kv_go args out = .error e) ↔ missingFlagValue args = true := by
  induction args, out using parse_kv_go.induct with
  | case1 out => simp [parse_kv_go, missingFlagValue]
  | case2 a out h =>
    rw [parse_kv_go_flag_last a out h, missingFlagValue_flag_last a h]
    simp
  | case3 a out h v rest' ih =>
    rw [parse_kv_go_flag_step a v rest' out h, missingFlagValue_flag_step a v rest' h]
    exact ih
  | case4 a rest out h ih =>
    rw [parse_kv_go_skip_step a rest out h, missingFlagValue_skip_step a rest h]
    exact ih

theorem parse_kv_go_error_shape (args : List String) (out : EnvList) (e : PyExc)
    (h : parse_kv_go args out = .error e) :
    ∃ a, isFlagTok a = true ∧ e = .systemExitMsg ("missing value for " ++ a) := by
  induction args, out using parse_kv_go.induct generalizing e with
  | case1 out => simp [parse_kv_go] at h
  | case2 a out hf =>
    refine ⟨a, hf, ?_⟩
    rw [parse_kv_go_flag_last a out hf] at h
    exact (Except.error.inj h).symm
  | case3 a out hf v rest' ih =>
    apply ih
    rw [parse_kv_go_flag_step a v rest' out hf] at h
    exact h
  | case4 a rest out hf ih =>
    apply ih
    rw [parse_kv_go_skip_step a rest out hf] at h
    exact h

theorem parse_kv_go_ok_keys (args : List String) (out res : EnvList)
    (h : parse_kv_go args out = .ok res) (k : String)
    (hk : (lookupKV res k).isSome = true) :
    (lookupKV out k).isSome = true ∨ k ∈ kvKeys := by
  induction args, out using parse_kv_go.induct generalizing res with
  | case1 out =>
    simp [parse_kv_go] at h
    subst h
    exact Or.inl hk
  | case2 a out hf =>
    rw [parse_kv_go_flag_last a out hf] at h
    exact absurd h (by simp)
  | case3 a out hf v rest' ih =>
    rw [parse_kv_go_flag_step a v rest' out hf] at h
    rcases ih res h hk with hsome | hmem
    · rw [lookupKV_setKV] at hsome
      by_cases hka : k = keyOf a
      · exact Or.inr (hka ▸ keyOf_mem_kvKeys a hf)
      · rw [if_neg hka] at hsome
        exact Or.inl hsome
    · exact Or.inr hmem
  | case4 a rest out hf ih =>
    rw [parse_kv_go_skip_step a rest out hf] at h
    exact ih res h hk

theorem parse_kv_go_ok_provenance (args : List String) (out res : EnvList)
    (h : parse_kv_go args out = .ok res) (k v : String)
    (hk : lookupKV res k = some v) :
    lookupKV out k = some v ∨
      ∃ i a, args.get? i = some a ∧ isFlagTok a = true ∧ keyOf a = k ∧
        args.get? (i + 1) = some v := by
  induction args, out using parse_kv_go.induct generalizing res with
  | case1 out =>
    simp [parse_kv_go] at h
    subst h
    exact Or.inl hk
  | case2 a out hf =>
    rw [parse_kv_go_flag_last a out hf] at h
    exact absurd h (by simp)
  | case3 a out hf w rest' ih =>
    rw [parse_kv_go_flag_step a w rest' out hf] at h
    rcases ih res h hk with hsome | ⟨i, b, h1, h2, h3, h4⟩
    · rw [lookupKV_setKV] at hsome
      by_cases hka : k = keyOf a
      · rw [if_pos hka] at hsome
        refine Or.inr ⟨0, a, rfl, hf, hka.symm, ?_⟩
        simpa using hsome
      · rw [if_neg hka] at hsome
        exact Or.inl hsome
    · exact Or.inr ⟨i + 2, b, by simpa using h1, h2, h3, by simpa using h4⟩
  | case4 a rest out hf ih =>
    rw [parse_kv_go_skip_step a rest out hf] at h
    rcases ih res h hk with hsome | ⟨i, b, h1, h2, h3, h4⟩
    · exact Or.inl hsome
    · exact Or.inr ⟨i + 1, b, by simpa using h1, h2, h3, by simpa using h4⟩

/-- Claim C10: the left-to-right scan of _parse_kv fails with SystemExit
exactly when it reaches a recognized flag that is the final token with no
following value; on success every key of the result stems from a recognized
flag whose immediately following token supplied the value, so no other token
(positionals and the unrecognized --win flag included) ever becomes a key or
causes an error. -/
theorem parse_kv_characterization (args : List String) :
    ((∃ e, parse_kv args = .error e) ↔ missingFlagValue args = true) ∧
      (∀ e, parse_kv args = .error e →
        ∃ a, isFlagTok a = true ∧ e = .systemExitMsg ("missing value for " ++ a)) ∧
      (∀ res k, parse_kv args = .ok res → (lookupKV res k).isSome = true →
        k ∈ kvKeys) ∧
      (∀ res k v, parse_kv args = .ok res → lookupKV res k = some v →
        ∃ i a, args.get? i = some a ∧ isFlagTok a = true ∧ keyOf a = k ∧
          args.get? (i + 1) = some v) := by
  refine ⟨parse_kv_go_error_iff args [], ?_, ?_, ?_⟩
  · intro e he
    exact parse_kv_go_error_shape args [] e he
  · intro res k hres hk
    rcases parse_kv_go_ok_keys args [] res hres k hk with hsome | hmem
    · simp [lookupKV] at hsome
    · exact hmem
  · intro res k v hres hk
    rcases parse_kv_go_ok_provenance args [] res hres k v hk with hsome | hprov
    · simp [lookupKV] at hsome
    · exact hprov

/-- Witness for parse_kv_characterization at concrete argument lists. -/
theorem parse_kv_characterization_witness :
    (∃ e, parse_kv ["--project"] = .error e) ∧
      "elf" ∈ kvKeys ∧
      (∃ i a, (["--win", "--elf", "x"] : List String).get? i = some a ∧
        isFlagTok a = true ∧ keyOf a = "elf" ∧
        (["--win", "--elf", "x"] : List String).get? (i + 1) = some "x") :=
  ⟨(parse_kv_characterization ["--project"]).1.mpr (by decide),
    (parse_kv_characterization ["--win", "--elf", "x"]).2.2.1 [("elf", "x")] "elf"
      rfl (by decide),
    (parse_kv_characterization ["--win", "--elf", "x"]).2.2.2 [("elf", "x")] "elf" "x"
      rfl (by decide)⟩

/-- Claim C4 evaluated on the code: with no subcommand, main() computes
return value 1 (after printing help), but the module entry point calls
main() without sys.exit, so the interpreter discards the value and the
process terminates with exit code 0, not 1. -/
theorem main_no_command_exit (W : World) :
    (mainRun W .pnone).2 = .ok 1 ∧ moduleExit W .pnone = 0 :=
  ⟨rfl, rfl⟩

/-- Claim C6: run --elf ./bin/app.elf without --win spawns the POSIX run
script with argument list exactly --elf ./bin/app.elf and the unmodified
inherited environment (no overlay at all, hence no WIN_PCSX2_EXE override),
and relays the script's exit code as an uncaught SystemExit. -/
theorem run_elf_posix_dispatch (W : World) :
    mainRun W (.prun false (some "./bin/app.elf") none) =
      ([⟨joinPath W.chBase ["pcsx2_scaffold", "scripts", "run_pcsx2.sh"],
         ["--elf", "./bin/app.elf"], W.base⟩],
       .error (.systemExit (W.oracle ⟨joinPath W.chBase
         ["pcsx2_scaffold", "scripts", "run_pcsx2.sh"],
         ["--elf", "./bin/app.elf"], W.base⟩))) ∧
      envWith none W.base = W.base ∧
      lookupKV W.base "WIN_PCSX2_EXE" = lookupKV W.base "WIN_PCSX2_EXE" :=
  ⟨rfl, rfl, rfl⟩

/-- Claim C7: watch --win --project ./p --build make-j4 selects the Windows
watch script and spawns it with no positional arguments and an environment
in which TARGET_PROJECT is ./p and BUILD_CMD is make -j4, while TARGET_ELF
and WIN_PCSX2_EXE are exactly as in the inherited environment (no override
applied to them). -/
theorem watch_win_dispatch (W : World) :
    (mainRun W (.pwatch true (some "./p") none (some "make -j4") none)).1 =
      [⟨joinPath W.chBase ["pcsx2_scaffold", "scripts", "watch_build_run_win.sh"], [],
        updateKV W.base [("TARGET_PROJECT", "./p"), ("BUILD_CMD", "make -j4")]⟩] ∧
      lookupKV (updateKV W.base [("TARGET_PROJECT", "./p"), ("BUILD_CMD", "make -j4")])
          "TARGET_PROJECT" = some "./p" ∧
      lookupKV (updateKV W.base [("TARGET_PROJECT", "./p"), ("BUILD_CMD", "make -j4")])
          "BUILD_CMD" = some "make -j4" ∧
      lookupKV (updateKV W.base [("TARGET_PROJECT", "./p"), ("BUILD_CMD", "make -j4")])
          "TARGET_ELF" = lookupKV W.base "TARGET_ELF" ∧
      lookupKV (updateKV W.base [("TARGET_PROJECT", "./p"), ("BUILD_CMD", "make -j4")])
          "WIN_PCSX2_EXE" = lookupKV W.base "WIN_PCSX2_EXE" := by
  refine ⟨rfl, ?_, ?_, ?_, ?_⟩ <;>
    · show lookupKV (setKV (setKV W.base "TARGET_PROJECT" "./p") "BUILD_CMD" "make -j4") _ = _
      rw [lookupKV_setKV, lookupKV_setKV]
      simp

theorem chunked_append {xs ys : List String} (hx : Chunked xs) (hy : Chunked ys) :
    Chunked (xs ++ ys) := by
  induction hx with
  | nil => exact hy
  | skip a rest h _ ih => exact Chunked.skip a _ (by simpa using h) ih
  | flagVal a v rest h _ ih => exact Chunked.flagVal a v _ h ih

theorem missingFlagValue_of_chunked {l : List String} (h : Chunked l) :
    missingFlagValue l = false := by
  induction h with
  | nil => rfl
  | skip a rest hf _ ih =>
    rw [missingFlagValue_skip_step a rest (by simp [hf])]
    exact ih
  | flagVal a v rest hf _ ih =>
    rw [missingFlagValue_flag_step a v rest hf]
    exact ih

theorem parse_kv_ok_of_chunked {l : List String} (h : Chunked l) :
    ∃ res, parse_kv l = .ok res := by
  cases hgo : parse_kv l with
  | ok r => exact ⟨r, rfl⟩
  | error e =>
    have : missingFlagValue l = true :=
      (parse_kv_go_error_iff l []).mp ⟨e, hgo⟩
    rw [missingFlagValue_of_chunked h] at this
    exact absurd this (by simp)

theorem chunked_opt_flag (flag : String) (hf : isFlagTok flag = true) :
    ∀ o : Option String, Chunked (match o with
      | some s => if s == "" then [] else [flag, s]
      | none => []) := by
  intro o
  cases o with
  | none => exact Chunked.nil
  | some s =>
    by_cases hs : s == ""
    · simp only [hs, if_pos]
      exact Chunked.nil
    · simp only [if_neg hs]
      exact Chunked.flagVal flag s [] hf Chunked.nil

theorem chunked_buildWatchArgs (win : Bool) (project elf build pcsx2 : Option String) :
    Chunked (buildWatchArgs win project elf build pcsx2) := by
  unfold buildWatchArgs
  refine chunked_append (chunked_append (chunked_append (chunked_append ?_ ?_) ?_) ?_) ?_
  · cases win
    · exact Chunked.nil
    · exact Chunked.skip "--win" [] (by decide) Chunked.nil
  · exact chunked_opt_flag "--project" (by decide) project
  · exact chunked_opt_flag "--elf" (by decide) elf
  · exact chunked_opt_flag "--build" (by decide) build
  · exact chunked_opt_flag "--pcsx2-exe" (by decide) pcsx2

theorem chunked_buildRunArgs (win : Bool) (elf pcsx2 : Option String) :
    Chunked (buildRunArgs win elf pcsx2) := by
  unfold buildRunArgs
  refine chunked_append (chunked_append ?_ ?_) ?_
  · cases win
    · exact Chunked.nil
    · exact Chunked.skip "--win" [] (by decide) Chunked.nil
  · exact chunked_opt_flag "--elf" (by decide) elf
  · exact chunked_opt_flag "--pcsx2-exe" (by decide) pcsx2

theorem cmd_watch_result (oracle : Spawn → Int) (base : EnvList) (chBase : String)
    (args : List String) (kv : EnvList) (hkv : parse_kv args = .ok kv) :
    ∃ sp, cmd_watch oracle base chBase args = ([sp], .error (.systemExit (oracle sp))) := by
  simp only [cmd_watch, run_script, hkv]
  exact ⟨_, rfl⟩

theorem cmd_run_result (oracle : Spawn → Int) (base : EnvList) (chBase : String)
    (args : List String) (kv : EnvList) (hkv : parse_kv args = .ok kv) :
    ∃ sp, cmd_run oracle base chBase args = ([sp], .error (.systemExit (oracle sp))) := by
  simp only [cmd_run, run_script, hkv]
  split
  · exact ⟨_, rfl⟩
  · exact ⟨_, rfl⟩

/-- Claim C5: for each delegated command (new, watch, run, hook-install) in
synchronous mode, when every spawned script exits with code rc in 0..255,
exactly one spawn is performed and the toolbox process terminates with exit
code exactly rc: the SystemExit raised by the handler escapes main's
except ladder and reaches the interpreter. -/
theorem script_exit_code_relayed (W : World) (rc : Int)
    (hor : ∀ sp : Spawn, W.oracle sp = rc) (h0 : 0 ≤ rc) (h1 : rc < 256) :
    (∀ name dest, moduleExit W (.pnew name dest) = rc.toNat ∧
      (mainRun W (.pnew name dest)).1.length = 1) ∧
      (∀ win project elf build pcsx2,
        moduleExit W (.pwatch win project elf build pcsx2) = rc.toNat ∧
        (mainRun W (.pwatch win project elf build pcsx2)).1.length = 1) ∧
      (∀ win elf pcsx2, moduleExit W (.prun win elf pcsx2) = rc.toNat ∧
        (mainRun W (.prun win elf pcsx2)).1.length = 1) ∧
      (∀ repo, moduleExit W (.phook repo) = rc.toNat ∧
        (mainRun W (.phook repo)).1.length = 1) := by
  have hexit : ∀ sp : Spawn,
      processExitOf (handleExc (.systemExit (W.oracle sp))) = rc.toNat := by
    intro sp
    rw [hor sp]
    show (rc % 256).toNat = rc.toNat
    rw [Int.emod_eq_of_lt h0 h1]
  refine ⟨?_, ?_, ?_, ?_⟩
  · intro name dest
    exact ⟨hexit _, rfl⟩
  · intro win project elf build pcsx2
    obtain ⟨kv, hkv⟩ :=
      parse_kv_ok_of_chunked (chunked_buildWatchArgs win project elf build pcsx2)
    obtain ⟨sp, hsp⟩ := cmd_watch_result W.oracle W.base W.chBase _ kv hkv
    constructor
    · show processExitOf (mainRun W (.pwatch win project elf build pcsx2)).2 = rc.toNat
      simp only [mainRun, hsp]
      exact hexit sp
    · simp only [mainRun, hsp]
      rfl
  · intro win elf pcsx2
    obtain ⟨kv, hkv⟩ := parse_kv_ok_of_chunked (chunked_buildRunArgs win elf pcsx2)
    obtain ⟨sp, hsp⟩ := cmd_run_result W.oracle W.base W.chBase _ kv hkv
    constructor
    · show processExitOf (mainRun W (.prun win elf pcsx2)).2 = rc.toNat
      simp only [mainRun, hsp]
      exact hexit sp
    · simp only [mainRun, hsp]
      rfl
  · intro repo
    exact ⟨hexit _, rfl⟩

/-- Witness for script_exit_code_relayed: with every script exiting 7, the
new command's process exit code is 7. -/
theorem script_exit_code_relayed_witness :
    moduleExit testWorld (.pnew "proj" none) = (7 : Int).toNat ∧
      (mainRun testWorld (.pnew "proj" none)).1.length = 1 :=
  (script_exit_code_relayed testWorld 7 (fun _ => rfl) (by decide) (by decide)).1
    "proj" none

theorem mem_insertSortedKV (p x : String × String) (l : EnvList) :
    x ∈ insertSortedKV p l ↔ x = p ∨ x ∈ l := by
  induction l with
  | nil => simp [insertSortedKV]
  | cons q rest ih =>
    by_cases h : charListLe p.1.toList q.1.toList
    · simp only [insertSortedKV, if_pos h, List.mem_cons]
    · simp only [insertSortedKV, if_neg h, List.mem_cons, ih]
      tauto

theorem keys_insertSortedKV_perm (p : String × String) (l : EnvList) :
    ((insertSortedKV p l).map Prod.fst).Perm (p.1 :: l.map Prod.fst) := by
  induction l with
  | nil => simp [insertSortedKV]
  | cons q rest ih =>
    by_cases h : charListLe p.1.toList q.1.toList
    · simp only [insertSortedKV, if_pos h]
      exact List.Perm.refl _
    · simp only [insertSortedKV, if_neg h, List.map_cons]
      exact (ih.cons q.1).trans (List.Perm.swap p.1 q.1 _)

theorem keys_sortByKey_perm (l : EnvList) :
    ((sortByKey l).map Prod.fst).Perm (l.map Prod.fst) := by
  induction l with
  | nil => exact List.Perm.refl _
  | cons p rest ih =>
    have hstep : sortByKey (p :: rest) = insertSortedKV p (sortByKey rest) := rfl
    rw [hstep]
    exact (keys_insertSortedKV_perm p (sortByKey rest)).trans (ih.cons p.1)

theorem mem_sortByKey (x : String × String) (l : EnvList) :
    x ∈ sortByKey l ↔ x ∈ l := by
  induction l with
  | nil => simp [sortByKey]
  | cons p rest ih =>
    have hstep : sortByKey (p :: rest) = insertSortedKV p (sortByKey rest) := rfl
    rw [hstep, mem_insertSortedKV, ih]
    simp

theorem lookupKV_some_iff_mem (l : EnvList) (h : (l.map Prod.fst).Nodup)
    (k : String) (v : String) :
    lookupKV l k = some v ↔ (k, v) ∈ l := by
  induction l with
  | nil => simp [lookupKV]
  | cons p rest ih =>
    obtain ⟨k', v'⟩ := p
    simp only [List.map_cons, List.nodup_cons] at h
    by_cases hq : k = k'
    · subst hq
      simp only [lookupKV, if_pos rfl, List.mem_cons]
      constructor
      · intro hv
        exact Or.inl (by simpa using hv.symm)
      · intro hv
        rcases hv with hv | hv
        · simp [Prod.ext_iff] at hv
          simp [hv]
        · exact absurd (List.mem_map_of_mem Prod.fst hv) h.1
    · simp only [lookupKV, if_neg hq, List.mem_cons, ih h.2]
      constructor
      · exact Or.inr
      · intro hv
        rcases hv with hv | hv
        · exact absurd (congrArg Prod.fst hv) (by simpa using hq)
        · exact hv

theorem lookupKV_sortByKey (l : EnvList) (h : (l.map Prod.fst).Nodup)
    (k : String) : lookupKV (sortByKey l) k = lookupKV l k := by
  have hperm := keys_sortByKey_perm l
  have hnd : ((sortByKey l).map Prod.fst).Nodup := hperm.nodup_iff.mpr h
  cases hl : lookupKV l k with
  | none =>
    have hk : k ∉ l.map Prod.fst := (lookupKV_eq_none_iff l k).mp hl
    have hks : k ∉ (sortByKey l).map Prod.fst := fun hm => hk (hperm.mem_iff.mp hm)
    exact (lookupKV_eq_none_iff _ k).mpr hks
  | some v =>
    have hmem : (k, v) ∈ l := (lookupKV_some_iff_mem l h k v).mp hl
    have hmem' : (k, v) ∈ sortByKey l := (mem_sortByKey _ l).mpr hmem
    exact (lookupKV_some_iff_mem _ hnd k v).mpr hmem'

/-- Claim C8: a four-key settings mapping written by cfg_save and read back
by cfg_load (yaml available) returns the stored sorted mapping, and that
mapping agrees with the written one at every key (round-trip as mappings). -/
theorem cfg_save_load_roundtrip (fs : FS) (p e b x : String) :
    cfg_load (cfg_save fs true
        [("project", p), ("elf", e), ("build", b), ("pcsx2_exe", x)]) true =
      .ok (sortByKey [("project", p), ("elf", e), ("build", b), ("pcsx2_exe", x)]) ∧
      ∀ k, lookupKV
          (sortByKey [("project", p), ("elf", e), ("build", b), ("pcsx2_exe", x)]) k =
        lookupKV [("project", p), ("elf", e), ("build", b), ("pcsx2_exe", x)] k := by
  constructor
  · rfl
  · intro k
    have hkeys : (List.map Prod.fst
        [("project", p), ("elf", e), ("build", b), ("pcsx2_exe", x)]) =
        ["project", "elf", "build", "pcsx2_exe"] := rfl
    exact lookupKV_sortByKey _ (by rw [hkeys]; decide) k

/-- Counterexample to claim C3 as stated: on a malformed settings file,
_cfg_load (the path used by the config command) raises the raw YAML parse
error, which is not a ConfigurationError-kind failure; only load_config
wraps it. -/
theorem cfg_load_raw_error_counterexample :
    cfg_load malformedFS true = .error (.yamlError "bad") ∧
      isConfigErrorExc (.yamlError "bad") = false ∧
      load_config malformedFS true =
        .error (.configurationError "Invalid YAML in config file: bad") :=
  ⟨rfl, rfl, rfl⟩

/-- Claim C3, amended: a settings file that exists but fails to parse is a
hard error on every read path and never yields a partial mapping; on the
load_config path it is wrapped as a ConfigurationError, while on the
_cfg_load path used by the config command the raw YAML parse error
propagates unwrapped. -/
theorem malformed_settings_behavior (fs : FS) (msg : String)
    (h : fs.files cfgPath = some (.malformed msg)) :
    load_config fs true =
      .error (.configurationError ("Invalid YAML in config file: " ++ msg)) ∧
      cfg_load fs true = .error (.yamlError msg) ∧
      ∀ chBase i1 i2 i3 i4,
        cmd_config fs true chBase i1 i2 i3 i4 = .error (.yamlError msg) := by
  have hload : cfg_load fs true = .error (.yamlError msg) := by
    unfold cfg_load
    rw [h]
    rfl
  refine ⟨?_, hload, ?_⟩
  · unfold load_config
    rw [h]
    rfl
  · intro chBase i1 i2 i3 i4
    unfold cmd_config
    rw [hload]

/-- Witness for malformed_settings_behavior at a concrete filesystem. -/
theorem malformed_settings_behavior_witness :
    load_config malformedFS true =
      .error (.configurationError ("Invalid YAML in config file: " ++ "bad")) ∧
      cmd_config malformedFS true "/base" "" "" "" "" = .error (.yamlError "bad") :=
  ⟨(malformed_settings_behavior malformedFS "bad" rfl).1,
    (malformed_settings_behavior malformedFS "bad" rfl).2.2 "/base" "" "" "" ""⟩

/-- Counterexample to claim C9 as stated: saving with the YAML dependency
unavailable writes no file, but it does create the settings file's parent
directory chain, so the filesystem does not stay unchanged. -/
theorem cfg_save_no_yaml_counterexample :
    emptyFS.dirs = [] ∧
      (cfg_save emptyFS false [("project", "p")]).dirs =
        ["~", "~/.config", "~/.config/console-hax"] ∧
      (cfg_save emptyFS false [("project", "p")]).files cfgPath = none :=
  ⟨rfl, rfl, rfl⟩

/-- Claim C9, amended: when the YAML dependency is unavailable, save raises
no error and neither creates nor modifies any file (the settings file
included), but it still creates the settings file's parent directories,
because os.makedirs runs before the dependency check. -/
theorem cfg_save_no_yaml_behavior (fs : FS) (cfg : EnvList) :
    (cfg_save fs false cfg).files = fs.files ∧
      (cfg_save fs false cfg).dirs = fs.dirs ++ mkdirChain (dirname cfgPath) :=
  ⟨rfl, rfl⟩

end MCP2
